import Mathlib

/-!
Verification development for the cascaded-regression face-alignment engine
(`src/facealignment.py`).

The core of the program is translated as a shallow embedding:

* coordinates are exact rationals (`ℚ`) standing for the numpy floats;
* a `Shape` is the ordered list of K landmark points (a numpy `(K, 2)` array);
* the SIFT backend (`sift.compute`, an external deterministic library call)
  is a parameter `sift : Img → Point → ℚ → List ℚ` giving the descriptor row
  produced for one keypoint `cv2.KeyPoint(x, y, keypoint_size)`;
* `sklearn.linear_model.LinearRegression` fitting is a parameter
  `fit : X → Y → Except String RegModel`; a raised exception is `.error`,
  a fitted model is `.ok`.  A fitted model is its `predict` function on one
  flattened feature row;
* the two mutable-array functions `cascaded_regression` and
  `regression_predict` are translated twice: once as pure functions on shape
  values, and once in a store-passing form (`Mem`) that records every numpy
  array allocation, in order to settle the frame/aliasing claims.
-/

/-- A 2-D landmark coordinate `(x, y)`. -/
abbrev Point := ℚ × ℚ

/-- An ordered sequence of landmark coordinates: one numpy `(K, 2)` array. -/
abbrev Shape := List Point

/-- Pointwise addition of two coordinates. -/
def addPt (p q : Point) : Point := (p.1 + q.1, p.2 + q.2)

/-- Pointwise subtraction of two coordinates. -/
def subPt (p q : Point) : Point := (p.1 - q.1, p.2 - q.2)

/-- Scaling of one coordinate by a scalar. -/
def smulPt (c : ℚ) (p : Point) : Point := (c * p.1, c * p.2)

/-- Elementwise numpy addition of two `(K, 2)` arrays. -/
def addShape (a b : Shape) : Shape := List.zipWith addPt a b

/-- Elementwise numpy subtraction of two `(K, 2)` arrays. -/
def subShape (a b : Shape) : Shape := List.zipWith subPt a b

/-- Scalar times a `(K, 2)` array. -/
def smulShape (c : ℚ) (s : Shape) : Shape := s.map (smulPt c)

/-- Scalar times a flat vector (`damping_factors[i] * delta` on a flattened array). -/
def smulList (c : ℚ) (l : List ℚ) : List ℚ := l.map (fun x => c * x)

/-- The `.flatten()` of a `(K, 2)` array: row-major order `x0, y0, x1, y1, …`. -/
def flattenShape : Shape → List ℚ
  | [] => []
  | p :: ps => p.1 :: p.2 :: flattenShape ps

/-- The `.reshape(-1, 2)` of a flat vector back into a `(K, 2)` array. -/
def unflatten : List ℚ → Shape
  | x :: y :: rest => (x, y) :: unflatten rest
  | _ => []

/-- The global `resize_scale = 0.25` scale used for all images and points. -/
def resize_scale : ℚ := 1 / 4

/-- The global `keypoint_size = 10 * resize_scale`, the SIFT keypoint support size. -/
def keypoint_size : ℚ := 10 * resize_scale

/-- Python `compute_descriptors(image, points)`: one SIFT descriptor row per landmark,
computed at `cv2.KeyPoint(x, y, keypoint_size)`; rows in landmark order. -/
def compute_descriptors {Img : Type} (sift : Img → Point → ℚ → List ℚ)
    (image : Img) (points : Shape) : List (List ℚ) :=
  points.map (fun p => sift image p keypoint_size)

/-- Python `average_points = np.mean(train_points_resized, axis=0)`: the elementwise
mean of the training shapes, the Shape Prior. -/
def average_points (train_points_resized : List Shape) : Shape :=
  match train_points_resized with
  | [] => []
  | s :: rest => smulShape (1 / ((s :: rest).length : ℚ)) (rest.foldl addShape s)

/-- A fitted `sklearn` linear-regression stage: its `model.predict` on one
flattened feature row (the caller reshapes the output to `(K, 2)`). -/
structure RegModel where
  predict : List ℚ → List ℚ

/-- The first inner loop of one stage of `cascaded_regression` (lines 107–119):
materialise `predicted_train_points[j]` (`average_points.copy()` when still
`None`), and collect the batches `x_train` (flattened descriptors at the
current prediction) and `y_train` (`damping_factors[i] * delta`).
Returns `(predicted_train_points, x_train, y_train)` after the loop. -/
def collectStage {Img : Type} (sift : Img → Point → ℚ → List ℚ) (avg : Shape)
    (d : ℚ) :
    List Img → List Shape → List (Option Shape) →
    List Shape × List (List ℚ) × List (List ℚ)
  | img :: imgs, gt :: gts, p :: preds =>
    (p.getD avg :: (collectStage sift avg d imgs gts preds).1,
     (compute_descriptors sift img (p.getD avg)).flatten
       :: (collectStage sift avg d imgs gts preds).2.1,
     smulList d (flattenShape (subShape gt (p.getD avg)))
       :: (collectStage sift avg d imgs gts preds).2.2)
  | _, _, _ => ([], [], [])

/-- The second inner loop of one stage of `cascaded_regression` (lines 130–138):
recompute descriptors at the current prediction, predict a delta with the
just-fitted model, and update
`predicted_train_points[k] = predicted_train_points[k] + damping_factors[i] * delta`. -/
def updateStage {Img : Type} (sift : Img → Point → ℚ → List ℚ)
    (model : RegModel) (d : ℚ) : List Img → List Shape → List Shape
  | img :: imgs, p :: preds =>
    addShape p (smulShape d (unflatten
        (model.predict (compute_descriptors sift img p).flatten)))
      :: updateStage sift model d imgs preds
  | _, _ => []

/-- The outer `for i in range(num_regressors)` loop of `cascaded_regression`:
`i` is the stage index, the fuel is the number of stages still to run,
`preds` is `predicted_train_points` and `acc` the `regressors` list so far.
`damping_factors[i]` out of range raises an IndexError, and a failing
`model.fit` raises — both become `.error`. -/
def cascadeLoop {Img : Type} (sift : Img → Point → ℚ → List ℚ)
    (fit : List (List ℚ) → List (List ℚ) → Except String RegModel)
    (avg : Shape) (damping : List ℚ) (imgs : List Img) (gts : List Shape) :
    ℕ → ℕ → List (Option Shape) → List RegModel →
    Except String (List (Option Shape) × List RegModel)
  | _, 0, preds, acc => Except.ok (preds, acc)
  | i, fuel + 1, preds, acc =>
    match damping[i]? with
    | none => Except.error "IndexError: list index out of range"
    | some d =>
      match fit (collectStage sift avg d imgs gts preds).2.1
          (collectStage sift avg d imgs gts preds).2.2 with
      | Except.error e => Except.error e
      | Except.ok model =>
        cascadeLoop sift fit avg damping imgs gts (i + 1) fuel
          (List.map some
            (updateStage sift model d imgs (collectStage sift avg d imgs gts preds).1))
          (acc ++ [model])

/-- Python `cascaded_regression(num_regressors, damping_factors, train_images, train_points)`
(lines 99–140).  The ambient globals — the SIFT object, the sklearn fitter and
`average_points` — are passed explicitly.  Returns the `regressors` list. -/
def cascaded_regression {Img : Type} (sift : Img → Point → ℚ → List ℚ)
    (fit : List (List ℚ) → List (List ℚ) → Except String RegModel) (avg : Shape)
    (num_regressors : ℕ) (damping_factors : List ℚ)
    (train_images : List Img) (train_points : List Shape) :
    Except String (List RegModel) :=
  Except.map (fun s => s.2)
    (cascadeLoop sift fit avg damping_factors train_images train_points
      0 num_regressors (List.replicate train_images.length none) [])

/-- The final value of the internal `predicted_train_points` working list of
`cascaded_regression`, exposed for specification purposes. -/
def cascadeTrainPreds {Img : Type} (sift : Img → Point → ℚ → List ℚ)
    (fit : List (List ℚ) → List (List ℚ) → Except String RegModel) (avg : Shape)
    (num_regressors : ℕ) (damping_factors : List ℚ)
    (train_images : List Img) (train_points : List Shape) :
    Except String (List (Option Shape)) :=
  Except.map (fun s => s.1)
    (cascadeLoop sift fit avg damping_factors train_images train_points
      0 num_regressors (List.replicate train_images.length none) [])

/-- The `for i in range(len(regressors))` refinement loop of
`regression_predict` (lines 147–155) for one image, starting from the current
`predicted_points`. -/
def predictLoop {Img : Type} (sift : Img → Point → ℚ → List ℚ) (img : Img)
    (damping : List ℚ) : List RegModel → ℕ → Shape → Except String Shape
  | [], _, pts => Except.ok pts
  | reg :: regs, i, pts =>
    match damping[i]? with
    | none => Except.error "IndexError: list index out of range"
    | some d =>
      predictLoop sift img damping regs (i + 1)
        (addShape pts (smulShape d (unflatten
          (reg.predict (compute_descriptors sift img pts).flatten))))

/-- The `for img in images` loop of `regression_predict` (lines 144–157):
each image starts from `average_points.copy()` and the refined shape is
appended to `predictions`. -/
def predictAll {Img : Type} (sift : Img → Point → ℚ → List ℚ)
    (damping : List ℚ) (regs : List RegModel) (avg : Shape) :
    List Img → Except String (List Shape)
  | [] => Except.ok []
  | img :: imgs =>
    match predictLoop sift img damping regs 0 avg with
    | Except.error e => Except.error e
    | Except.ok p =>
      match predictAll sift damping regs avg imgs with
      | Except.error e => Except.error e
      | Except.ok ps => Except.ok (p :: ps)

/-- Python `regression_predict(images, regressors, damping_factors)` (lines 142–159),
with the globals (SIFT object and `average_points`) passed explicitly. -/
def regression_predict {Img : Type} (sift : Img → Point → ℚ → List ℚ)
    (avg : Shape) (images : List Img) (regressors : List RegModel)
    (damping_factors : List ℚ) : Except String (List Shape) :=
  predictAll sift damping_factors regressors avg images

/-!
### Store-passing translation

To settle the frame/aliasing claims the two core functions are also translated
with an explicit store of numpy arrays.  `Mem` holds the shape arrays (the
Shape Prior, the ground-truth rows, and every freshly allocated working array)
and the image arrays.  The source only ever *allocates* shape arrays
(`average_points.copy()` and the out-of-place `a + b` / `c * a` arithmetic);
it never writes into an existing cell, and that is exactly what the
translation records.
-/

/-- The array store: shape arrays (`shapes`, addressed by allocation index)
and image arrays (`images`). -/
structure Mem (Img : Type) where
  shapes : List Shape
  images : List Img

/-- Read a shape array from the store. -/
def readS (store : List Shape) (r : ℕ) : Shape := store.getD r []

/-- Read an image array from the store. -/
def readI {Img : Type} [Inhabited Img] (m : Mem Img) (r : ℕ) : Img :=
  m.images.getD r default

/-- Allocate a fresh shape array holding `s`; returns its reference. -/
def allocS {Img : Type} (m : Mem Img) (s : Shape) : ℕ × Mem Img :=
  (m.shapes.length, ⟨m.shapes ++ [s], m.images⟩)

/-- Store-passing form of the first inner loop of one `cascaded_regression`
stage (lines 107–119): `predicted_train_points[j] = average_points.copy()`
allocates a fresh copy of the prior cell `r_avg` when the slot is `None`. -/
def collectStageH {Img : Type} [Inhabited Img]
    (sift : Img → Point → ℚ → List ℚ) (r_avg : ℕ) (d : ℚ) :
    List ℕ → List ℕ → List (Option ℕ) → Mem Img →
    List ℕ × List (List ℚ) × List (List ℚ) × Mem Img
  | jr :: img_refs, gr :: gt_refs, p :: preds, m =>
    match (match p with
           | none => allocS m (readS m.shapes r_avg)
           | some r => (r, m)) with
    | (rj, m1) =>
      (rj :: (collectStageH sift r_avg d img_refs gt_refs preds m1).1,
       (compute_descriptors sift (readI m1 jr) (readS m1.shapes rj)).flatten
         :: (collectStageH sift r_avg d img_refs gt_refs preds m1).2.1,
       smulList d (flattenShape
           (subShape (readS m1.shapes gr) (readS m1.shapes rj)))
         :: (collectStageH sift r_avg d img_refs gt_refs preds m1).2.2.1,
       (collectStageH sift r_avg d img_refs gt_refs preds m1).2.2.2)
  | _, _, _, m => ([], [], [], m)

/-- Store-passing form of the second inner loop of one stage (lines 130–138):
`predicted_train_points[k] + damping_factors[i] * delta` allocates a fresh
array and the slot is rebound to it. -/
def updateStageH {Img : Type} [Inhabited Img]
    (sift : Img → Point → ℚ → List ℚ) (model : RegModel) (d : ℚ) :
    List ℕ → List ℕ → Mem Img → List ℕ × Mem Img
  | jr :: img_refs, r :: rs, m =>
    match allocS m (addShape (readS m.shapes r) (smulShape d (unflatten
        (model.predict
          (compute_descriptors sift (readI m jr) (readS m.shapes r)).flatten)))) with
    | (r2, m1) =>
      (r2 :: (updateStageH sift model d img_refs rs m1).1,
       (updateStageH sift model d img_refs rs m1).2)
  | _, _, m => ([], m)

/-- Store-passing form of the outer stage loop of `cascaded_regression`. -/
def cascadeLoopH {Img : Type} [Inhabited Img]
    (sift : Img → Point → ℚ → List ℚ)
    (fit : List (List ℚ) → List (List ℚ) → Except String RegModel)
    (r_avg : ℕ) (damping : List ℚ) (img_refs gt_refs : List ℕ) :
    ℕ → ℕ → List (Option ℕ) → List RegModel → Mem Img →
    Except String (List RegModel × Mem Img)
  | _, 0, _, acc, m => Except.ok (acc, m)
  | i, fuel + 1, preds, acc, m =>
    match damping[i]? with
    | none => Except.error "IndexError: list index out of range"
    | some d =>
      match collectStageH sift r_avg d img_refs gt_refs preds m with
      | (preds1, xs, ys, m1) =>
        match fit xs ys with
        | Except.error e => Except.error e
        | Except.ok model =>
          match updateStageH sift model d img_refs preds1 m1 with
          | (preds2, m2) =>
            cascadeLoopH sift fit r_avg damping img_refs gt_refs (i + 1) fuel
              (preds2.map some) (acc ++ [model]) m2

/-- Store-passing form of `cascaded_regression` (lines 99–140): the training
images and ground-truth shapes are passed as store references, the Shape Prior
lives in cell `r_avg`, and the final store is returned with the regressors. -/
def cascaded_regression_st {Img : Type} [Inhabited Img]
    (sift : Img → Point → ℚ → List ℚ)
    (fit : List (List ℚ) → List (List ℚ) → Except String RegModel)
    (r_avg : ℕ) (num_regressors : ℕ) (damping : List ℚ)
    (img_refs gt_refs : List ℕ) (m : Mem Img) :
    Except String (List RegModel × Mem Img) :=
  cascadeLoopH sift fit r_avg damping img_refs gt_refs 0 num_regressors
    (List.replicate img_refs.length none) [] m

/-- Store-passing form of the per-image refinement loop of
`regression_predict` (lines 147–155): each update allocates a fresh array. -/
def predictLoopH {Img : Type} [Inhabited Img]
    (sift : Img → Point → ℚ → List ℚ) (jr : ℕ) (damping : List ℚ) :
    List RegModel → ℕ → ℕ → Mem Img → Except String (ℕ × Mem Img)
  | [], _, r, m => Except.ok (r, m)
  | reg :: regs, i, r, m =>
    match damping[i]? with
    | none => Except.error "IndexError: list index out of range"
    | some d =>
      match allocS m (addShape (readS m.shapes r) (smulShape d (unflatten
          (reg.predict
            (compute_descriptors sift (readI m jr) (readS m.shapes r)).flatten)))) with
      | (r2, m1) => predictLoopH sift jr damping regs (i + 1) r2 m1

/-- Store-passing form of the `for img in images` loop of
`regression_predict`: `predicted_points = average_points.copy()` allocates a
fresh copy of the prior cell before the refinement loop. -/
def predictAllH {Img : Type} [Inhabited Img]
    (sift : Img → Point → ℚ → List ℚ) (damping : List ℚ)
    (regs : List RegModel) (r_avg : ℕ) :
    List ℕ → Mem Img → Except String (List ℕ × Mem Img)
  | [], m => Except.ok ([], m)
  | jr :: jrs, m =>
    match allocS m (readS m.shapes r_avg) with
    | (r0, m1) =>
      match predictLoopH sift jr damping regs 0 r0 m1 with
      | Except.error e => Except.error e
      | Except.ok (rp, m2) =>
        match predictAllH sift damping regs r_avg jrs m2 with
        | Except.error e => Except.error e
        | Except.ok (rps, m3) => Except.ok (rp :: rps, m3)

/-- Store-passing form of `regression_predict` (lines 142–159). -/
def regression_predict_st {Img : Type} [Inhabited Img]
    (sift : Img → Point → ℚ → List ℚ) (r_avg : ℕ) (img_refs : List ℕ)
    (regressors : List RegModel) (damping : List ℚ) (m : Mem Img) :
    Except String (List ℕ × Mem Img) :=
  predictAllH sift damping regressors r_avg img_refs m

/-- One store extends another: the images are untouched and the shape cells
are preserved, with new arrays only appended. -/
def MemExt {Img : Type} (m m' : Mem Img) : Prop :=
  m'.images = m.images ∧ ∃ t, m'.shapes = m.shapes ++ t

/-! ### Basic facts about the shape algebra -/

lemma addPt_eq_add (p q : Point) : addPt p q = p + q := by
  simp [addPt, Prod.ext_iff]

lemma unflatten_smulList_flatten (c : ℚ) (s : Shape) :
    unflatten (smulList c (flattenShape s)) = smulShape c s := by
  induction s with
  | nil => simp [flattenShape, smulList, unflatten, smulShape]
  | cons p ps ih =>
    simp [flattenShape, smulList, unflatten, smulShape, smulPt] at *
    exact ih

lemma smulShape_smulShape (a b : ℚ) (s : Shape) :
    smulShape a (smulShape b s) = smulShape (a * b) s := by
  induction s with
  | nil => simp [smulShape]
  | cons p ps ih =>
    simp [smulShape, smulPt] at *
    refine ⟨⟨by ring, by ring⟩, ih⟩

lemma foldl_addPt_eq_sum (l : List Point) (a : Point) :
    l.foldl addPt a = a + l.sum := by
  induction l generalizing a with
  | nil => simp
  | cons p ps ih => simp [List.sum_cons, ih, addPt_eq_add, add_assoc]

lemma addShape_length (a b : Shape) :
    (addShape a b).length = min a.length b.length := by
  simp [addShape]

lemma addShape_getD (a b : Shape) (k : ℕ) (ha : k < a.length)
    (hb : k < b.length) :
    (addShape a b).getD k (0, 0) = addPt (a.getD k (0, 0)) (b.getD k (0, 0)) := by
  induction a generalizing b k with
  | nil => simp at ha
  | cons p ps ih =>
    cases b with
    | nil => simp at hb
    | cons q qs =>
      cases k with
      | zero => simp [addShape]
      | succ k =>
        simp only [addShape, List.zipWith_cons_cons, List.getD_cons_succ]
        exact ih qs k (by simpa using ha) (by simpa using hb)

lemma smulShape_getD (c : ℚ) (s : Shape) (k : ℕ) (hk : k < s.length) :
    (smulShape c s).getD k (0, 0) = smulPt c (s.getD k (0, 0)) := by
  induction s generalizing k with
  | nil => simp at hk
  | cons p ps ih =>
    cases k with
    | zero => simp [smulShape]
    | succ k =>
      simp only [smulShape, List.map_cons, List.getD_cons_succ]
      exact ih k (by simpa using hk)

/-! ### The Shape Prior as the elementwise mean -/

lemma foldl_addShape_length (K : ℕ) :
    ∀ (rest : List Shape) (s : Shape), s.length = K →
      (∀ t ∈ rest, t.length = K) → (rest.foldl addShape s).length = K := by
  intro rest
  induction rest with
  | nil => intro s hs _; simpa using hs
  | cons t ts ih =>
    intro s hs hall
    have ht : t.length = K := hall t (by simp)
    have : (addShape s t).length = K := by
      rw [addShape_length, hs, ht, Nat.min_self]
    exact ih (addShape s t) this (fun u hu => hall u (by simp [hu]))

lemma foldl_addShape_getD (K k : ℕ) (hk : k < K) :
    ∀ (rest : List Shape) (s : Shape), s.length = K →
      (∀ t ∈ rest, t.length = K) →
      (rest.foldl addShape s).getD k (0, 0)
        = (rest.map (fun t => t.getD k (0, 0))).foldl addPt (s.getD k (0, 0)) := by
  intro rest
  induction rest with
  | nil => intro s _ _; simp
  | cons t ts ih =>
    intro s hs hall
    have ht : t.length = K := hall t (by simp)
    have hlen : (addShape s t).length = K := by
      rw [addShape_length, hs, ht, Nat.min_self]
    have hstep : (addShape s t).getD k (0, 0)
        = addPt (s.getD k (0, 0)) (t.getD k (0, 0)) :=
      addShape_getD s t k (by omega) (by omega)
    simp only [List.foldl_cons, List.map_cons]
    rw [ih (addShape s t) hlen (fun u hu => hall u (by simp [hu])), hstep]

/-! ### Stage-0 batch characterisation and single-stage evaluation -/

lemma collectStage_repl {Img : Type} (sift : Img → Point → ℚ → List ℚ)
    (avg : Shape) (d : ℚ) :
    ∀ (imgs : List Img) (gts : List Shape), imgs.length = gts.length →
      collectStage sift avg d imgs gts (List.replicate imgs.length none)
        = (imgs.map (fun _ => avg),
           imgs.map (fun img => (compute_descriptors sift img avg).flatten),
           gts.map (fun gt => smulList d (flattenShape (subShape gt avg)))) := by
  intro imgs
  induction imgs with
  | nil =>
    intro gts hlen
    cases gts with
    | nil => simp [collectStage]
    | cons g gs => simp at hlen
  | cons img imgs ih =>
    intro gts hlen
    cases gts with
    | nil => simp at hlen
    | cons gt gts =>
      have hlen' : imgs.length = gts.length := by simpa using hlen
      simp only [List.length_cons, List.replicate_succ, collectStage,
        Option.getD_none, List.map_cons]
      rw [ih gts hlen']

lemma updateStage_of_targets {Img : Type} (sift : Img → Point → ℚ → List ℚ)
    (m : RegModel) (d : ℚ) (avg : Shape) :
    ∀ {imgs : List Img} {gts : List Shape},
      List.Forall₂ (fun img gt =>
        m.predict ((compute_descriptors sift img avg).flatten)
          = smulList d (flattenShape (subShape gt avg))) imgs gts →
      updateStage sift m d imgs (imgs.map (fun _ => avg))
        = gts.map (fun gt => addShape avg (smulShape (d * d) (subShape gt avg))) := by
  intro imgs gts h
  induction h with
  | nil => simp [updateStage]
  | @cons img gt imgs gts hpq _ ih =>
    simp only [List.map_cons, updateStage, hpq, unflatten_smulList_flatten,
      smulShape_smulShape, ih]

lemma predictLoop_single {Img : Type} (sift : Img → Point → ℚ → List ℚ)
    (img : Img) (m : RegModel) (d : ℚ) (pts : Shape) :
    predictLoop sift img [d] [m] 0 pts
      = Except.ok (addShape pts (smulShape d (unflatten
          (m.predict (compute_descriptors sift img pts).flatten)))) := by
  simp [predictLoop]

lemma predictAll_of_targets {Img : Type} (sift : Img → Point → ℚ → List ℚ)
    (m : RegModel) (d : ℚ) (avg : Shape) :
    ∀ {imgs : List Img} {gts : List Shape},
      List.Forall₂ (fun img gt =>
        m.predict ((compute_descriptors sift img avg).flatten)
          = smulList d (flattenShape (subShape gt avg))) imgs gts →
      predictAll sift [d] [m] avg imgs
        = Except.ok (gts.map (fun gt =>
            addShape avg (smulShape (d * d) (subShape gt avg)))) := by
  intro imgs gts h
  induction h with
  | nil => simp [predictAll]
  | @cons img gt imgs gts hpq _ ih =>
    simp only [predictAll, predictLoop_single, hpq, unflatten_smulList_flatten,
      smulShape_smulShape, ih, List.map_cons]

lemma cascadeLoop_one_error {Img : Type} (sift : Img → Point → ℚ → List ℚ)
    (fit : List (List ℚ) → List (List ℚ) → Except String RegModel)
    (avg : Shape) (d : ℚ) (imgs : List Img) (gts : List Shape) (e : String)
    (hlen : imgs.length = gts.length)
    (hfit : fit (imgs.map (fun img => (compute_descriptors sift img avg).flatten))
        (gts.map (fun gt => smulList d (flattenShape (subShape gt avg))))
        = Except.error e) :
    cascadeLoop sift fit avg [d] imgs gts 0 1
      (List.replicate imgs.length none) [] = Except.error e := by
  have hc := collectStage_repl sift avg d imgs gts hlen
  show cascadeLoop sift fit avg [d] imgs gts 0 (0 + 1)
      (List.replicate imgs.length none) [] = Except.error e
  simp [cascadeLoop, hc, hfit]

lemma cascadeLoop_one_ok {Img : Type} (sift : Img → Point → ℚ → List ℚ)
    (fit : List (List ℚ) → List (List ℚ) → Except String RegModel)
    (avg : Shape) (d : ℚ) (imgs : List Img) (gts : List Shape) (model : RegModel)
    (hlen : imgs.length = gts.length)
    (hfit : fit (imgs.map (fun img => (compute_descriptors sift img avg).flatten))
        (gts.map (fun gt => smulList d (flattenShape (subShape gt avg))))
        = Except.ok model) :
    cascadeLoop sift fit avg [d] imgs gts 0 1
      (List.replicate imgs.length none) []
      = Except.ok
          (List.map some (updateStage sift model d imgs (imgs.map (fun _ => avg))),
           [model]) := by
  have hc := collectStage_repl sift avg d imgs gts hlen
  show cascadeLoop sift fit avg [d] imgs gts 0 (0 + 1)
      (List.replicate imgs.length none) [] = _
  simp [cascadeLoop, hc, hfit]

/-! ### Claim theorems -/

/-- Claim C1: for a single-stage cascade trained with damping factor `d`, if
the fitted Stage Regressor reproduces its stage-0 regression targets
`d * (ground_truth - initial)` exactly, then every training sample's final
predicted shape — both the internal `predicted_train_points` after training
and the output of `regression_predict` on the training image — equals
`initial_shape + d*d*(ground_truth - initial_shape)`: the damping factor is
applied once in the target and once more in the update, and the compounding
is observable in training and in prediction. -/
theorem C1_damping_double_applied {Img : Type} (sift : Img → Point → ℚ → List ℚ)
    (fit : List (List ℚ) → List (List ℚ) → Except String RegModel)
    (avg : Shape) (d : ℚ) (m : RegModel) (imgs : List Img) (gts : List Shape)
    (hlen : imgs.length = gts.length)
    (h1 : cascaded_regression sift fit avg 1 [d] imgs gts = Except.ok [m])
    (hm : List.Forall₂ (fun img gt =>
        m.predict ((compute_descriptors sift img avg).flatten)
          = smulList d (flattenShape (subShape gt avg))) imgs gts) :
    cascadeTrainPreds sift fit avg 1 [d] imgs gts
        = Except.ok (gts.map (fun gt =>
            some (addShape avg (smulShape (d * d) (subShape gt avg)))))
    ∧ regression_predict sift avg imgs [m] [d]
        = Except.ok (gts.map (fun gt =>
            addShape avg (smulShape (d * d) (subShape gt avg)))) := by
  cases hfit : fit (imgs.map (fun img => (compute_descriptors sift img avg).flatten))
      (gts.map (fun gt => smulList d (flattenShape (subShape gt avg)))) with
  | error e =>
    have hone := cascadeLoop_one_error sift fit avg d imgs gts e hlen hfit
    unfold cascaded_regression at h1
    rw [hone] at h1
    simp [Except.map] at h1
  | ok model =>
    have hone := cascadeLoop_one_ok sift fit avg d imgs gts model hlen hfit
    have hmod : model = m := by
      unfold cascaded_regression at h1
      rw [hone] at h1
      simpa [Except.map] using h1
    subst hmod
    refine ⟨?_, ?_⟩
    · unfold cascadeTrainPreds
      rw [hone, updateStage_of_targets sift model d avg hm]
      simp [Except.map, List.map_map, Function.comp]
    · unfold regression_predict
      exact predictAll_of_targets sift model d avg hm

/-- Concrete instance of C1: one training sample, damping `1/2`, prior `(0,0)`
and ground truth `(2,4)`; the fitter returns the constant model `[1, 2]`,
which is exactly the stage-0 target, and the predicted shape compounds the
damping twice. -/
theorem C1_damping_double_applied_witness :
    cascadeTrainPreds (fun _ _ _ => ([] : List ℚ))
        (fun _ _ => Except.ok ⟨fun _ => [1, 2]⟩) [((0 : ℚ), (0 : ℚ))]
        1 [1 / 2] [()] [[((2 : ℚ), (4 : ℚ))]]
      = Except.ok [some (addShape [((0 : ℚ), (0 : ℚ))]
          (smulShape ((1 / 2) * (1 / 2))
            (subShape [((2 : ℚ), (4 : ℚ))] [((0 : ℚ), (0 : ℚ))])))]
    ∧ regression_predict (fun _ _ _ => ([] : List ℚ)) [((0 : ℚ), (0 : ℚ))] [()]
        [⟨fun _ => [1, 2]⟩] [1 / 2]
      = Except.ok [addShape [((0 : ℚ), (0 : ℚ))]
          (smulShape ((1 / 2) * (1 / 2))
            (subShape [((2 : ℚ), (4 : ℚ))] [((0 : ℚ), (0 : ℚ))]))] := by
  have h := C1_damping_double_applied (fun _ _ _ => ([] : List ℚ))
    (fun _ _ => Except.ok ⟨fun _ => [1, 2]⟩) [((0 : ℚ), (0 : ℚ))] (1 / 2)
    ⟨fun _ => [1, 2]⟩ [()] [[((2 : ℚ), (4 : ℚ))]] rfl rfl
    (List.Forall₂.cons
      (by norm_num [compute_descriptors, smulList, flattenShape, subShape, subPt])
      List.Forall₂.nil)
  exact h

lemma predictAll_nil_regs {Img : Type} (sift : Img → Point → ℚ → List ℚ)
    (damping : List ℚ) (avg : Shape) :
    ∀ imgs : List Img,
      predictAll sift damping [] avg imgs = Except.ok (imgs.map (fun _ => avg)) := by
  intro imgs
  induction imgs with
  | nil => simp [predictAll]
  | cons img imgs ih => simp [predictAll, predictLoop, ih]

/-- Claim C2: the Shape Prior `average_points` is the coordinate-wise
arithmetic mean of the training shapes — `prior[k] = (1/n) · Σᵢ Sᵢ[k]` for
every landmark `k` — and it is the shape every prediction starts from (a
zero-stage prediction returns it for every image) and the shape every
training sample's prediction is initialised to at stage 0. -/
theorem C2_prior_is_mean {Img : Type} (sift : Img → Point → ℚ → List ℚ)
    (shapes : List Shape) (K k : ℕ) (imgs : List Img) (gts : List Shape)
    (damping : List ℚ) (d : ℚ)
    (hne : shapes ≠ []) (hK : ∀ s ∈ shapes, s.length = K) (hk : k < K)
    (hlen : imgs.length = gts.length) :
    (average_points shapes).getD k (0, 0)
        = smulPt (1 / (shapes.length : ℚ))
            ((shapes.map (fun s => s.getD k (0, 0))).sum)
    ∧ (average_points shapes).length = K
    ∧ regression_predict sift (average_points shapes) imgs [] damping
        = Except.ok (imgs.map (fun _ => average_points shapes))
    ∧ (collectStage sift (average_points shapes) d imgs gts
          (List.replicate imgs.length none)).1
        = imgs.map (fun _ => average_points shapes) := by
  obtain ⟨s, rest, rfl⟩ : ∃ s rest, shapes = s :: rest := by
    cases shapes with
    | nil => exact absurd rfl hne
    | cons s rest => exact ⟨s, rest, rfl⟩
  have hs : s.length = K := hK s (by simp)
  have hrest : ∀ t ∈ rest, t.length = K := fun t ht => hK t (by simp [ht])
  have hfoldlen : (rest.foldl addShape s).length = K :=
    foldl_addShape_length K rest s hs hrest
  refine ⟨?_, ?_, ?_, ?_⟩
  · show (smulShape (1 / (((s :: rest).length : ℕ) : ℚ))
        (rest.foldl addShape s)).getD k (0, 0) = _
    rw [smulShape_getD _ _ k (by omega),
      foldl_addShape_getD K k hk rest s hs hrest, foldl_addPt_eq_sum]
    simp [List.sum_cons]
  · show (smulShape _ (rest.foldl addShape s)).length = K
    simp [smulShape, hfoldlen]
  · exact predictAll_nil_regs sift damping (average_points (s :: rest)) imgs
  · rw [collectStage_repl sift (average_points (s :: rest)) d imgs gts hlen]

/-- Concrete instance of C2 with two one-landmark training shapes `(1,2)` and
`(3,4)`: the prior coordinate is the mean of the coordinates. -/
theorem C2_prior_is_mean_witness :
    (average_points [[((1 : ℚ), (2 : ℚ))], [((3 : ℚ), (4 : ℚ))]]).getD 0 (0, 0)
        = smulPt (1 / (([[((1 : ℚ), (2 : ℚ))], [((3 : ℚ), (4 : ℚ))]].length : ℚ)))
            (([[((1 : ℚ), (2 : ℚ))], [((3 : ℚ), (4 : ℚ))]].map
              (fun s => s.getD 0 (0, 0))).sum)
    ∧ (average_points [[((1 : ℚ), (2 : ℚ))], [((3 : ℚ), (4 : ℚ))]]).length = 1
    ∧ regression_predict (fun _ _ _ => ([] : List ℚ))
        (average_points [[((1 : ℚ), (2 : ℚ))], [((3 : ℚ), (4 : ℚ))]])
        ([] : List Unit) [] []
        = Except.ok (([] : List Unit).map
            (fun _ => average_points [[((1 : ℚ), (2 : ℚ))], [((3 : ℚ), (4 : ℚ))]]))
    ∧ (collectStage (fun _ _ _ => ([] : List ℚ))
          (average_points [[((1 : ℚ), (2 : ℚ))], [((3 : ℚ), (4 : ℚ))]]) 0
          ([] : List Unit) [] (List.replicate ([] : List Unit).length none)).1
        = ([] : List Unit).map
            (fun _ => average_points [[((1 : ℚ), (2 : ℚ))], [((3 : ℚ), (4 : ℚ))]]) :=
  C2_prior_is_mean (fun _ _ _ => ([] : List ℚ))
    [[((1 : ℚ), (2 : ℚ))], [((3 : ℚ), (4 : ℚ))]] 1 0 ([] : List Unit) [] [] 0
    (by simp) (by simp) (by norm_num) rfl

/-- Modelled from the spec: step 5 of the Cascade Trainer state machine,
"Re-predict deltas for every sample using the just-fitted regressor on the
same X" — the shape-update loop consuming the already-collected feature batch
`X` directly instead of recomputing descriptors. -/
def updateStageOnX (model : RegModel) (d : ℚ) :
    List (List ℚ) → List Shape → List Shape
  | x :: xs, p :: ps =>
    addShape p (smulShape d (unflatten (model.predict x)))
      :: updateStageOnX model d xs ps
  | _, _ => []

/-- Claim C3: within a training stage, the feature vectors recomputed by the
shape-update loop coincide with the feature batch `x_train` that the stage's
regressor was fitted on — running the update loop (which recomputes
descriptors at the per-sample current shapes) equals running it directly on
the collected batch, because the current shapes are unchanged between the two
loops and descriptor extraction is deterministic. -/
theorem C3_update_features_equal_fitted_X {Img : Type}
    (sift : Img → Point → ℚ → List ℚ) (model : RegModel) (d : ℚ) (avg : Shape) :
    ∀ (imgs : List Img) (gts : List Shape) (preds : List (Option Shape)),
      updateStage sift model d imgs (collectStage sift avg d imgs gts preds).1
        = updateStageOnX model d (collectStage sift avg d imgs gts preds).2.1
            (collectStage sift avg d imgs gts preds).1 := by
  intro imgs
  induction imgs with
  | nil => intro gts preds; simp [collectStage, updateStage, updateStageOnX]
  | cons img imgs ih =>
    intro gts preds
    cases gts with
    | nil => simp [collectStage, updateStage, updateStageOnX]
    | cons gt gts =>
      cases preds with
      | nil => simp [collectStage, updateStage, updateStageOnX]
      | cons p preds =>
        simp only [collectStage, updateStage, updateStageOnX]
        rw [ih gts preds]

lemma cascadeLoop_ok_length {Img : Type} (sift : Img → Point → ℚ → List ℚ)
    (fit : List (List ℚ) → List (List ℚ) → Except String RegModel)
    (avg : Shape) (damping : List ℚ) (imgs : List Img) (gts : List Shape) :
    ∀ (fuel i : ℕ) (preds : List (Option Shape)) (acc : List RegModel)
      (out : List (Option Shape) × List RegModel),
      cascadeLoop sift fit avg damping imgs gts i fuel preds acc = Except.ok out →
      out.2.length = acc.length + fuel := by
  intro fuel
  induction fuel with
  | zero =>
    intro i preds acc out h
    simp [cascadeLoop] at h
    simp [← h]
  | succ fuel ih =>
    intro i preds acc out h
    simp only [cascadeLoop] at h
    cases hd : damping[i]? with
    | none => rw [hd] at h; simp at h
    | some d =>
      rw [hd] at h
      dsimp only at h
      cases hfit : fit (collectStage sift avg d imgs gts preds).2.1
          (collectStage sift avg d imgs gts preds).2.2 with
      | error e => rw [hfit] at h; simp at h
      | ok model =>
        rw [hfit] at h
        dsimp only at h
        have := ih (i + 1) _ _ out h
        simp at this
        omega

/-- Claim C4: if the least-squares fit of stage `i` fails, the whole training
run returns that error — and a successful training run always returns as many
regressors as requested, so no partial list of stage-`0..i-1` regressors is
ever returned. -/
theorem C4_fit_failure_aborts {Img : Type} (sift : Img → Point → ℚ → List ℚ)
    (fit : List (List ℚ) → List (List ℚ) → Except String RegModel)
    (avg : Shape) (num : ℕ) (damping : List ℚ) (imgs : List Img)
    (gts : List Shape) (i fuel : ℕ) (preds : List (Option Shape))
    (acc : List RegModel) (d : ℚ) (e : String)
    (hd : damping[i]? = some d)
    (hfit : fit (collectStage sift avg d imgs gts preds).2.1
        (collectStage sift avg d imgs gts preds).2.2 = Except.error e) :
    cascadeLoop sift fit avg damping imgs gts i (fuel + 1) preds acc
        = Except.error e
    ∧ ∀ regs, cascaded_regression sift fit avg num damping imgs gts
        = Except.ok regs → regs.length = num := by
  constructor
  · simp [cascadeLoop, hd, hfit]
  · intro regs h
    unfold cascaded_regression at h
    cases hl : cascadeLoop sift fit avg damping imgs gts 0 num
        (List.replicate imgs.length none) [] with
    | error e' => rw [hl] at h; simp [Except.map] at h
    | ok out =>
      rw [hl] at h
      simp [Except.map] at h
      have := cascadeLoop_ok_length sift fit avg damping imgs gts num 0 _ _ out hl
      simp at this
      rw [← h]
      exact this

/-- Concrete instance of C4: a fitter that always fails makes the stage loop
return its error. -/
theorem C4_fit_failure_aborts_witness :
    cascadeLoop (fun _ _ _ => ([] : List ℚ))
        (fun _ _ => Except.error "fit failed") [((0 : ℚ), (0 : ℚ))] [1] [()]
        [[((1 : ℚ), (1 : ℚ))]] 0 (0 + 1) [none] []
      = Except.error "fit failed" :=
  (C4_fit_failure_aborts (fun _ _ _ => ([] : List ℚ))
    (fun _ _ => Except.error "fit failed") [((0 : ℚ), (0 : ℚ))] 1 [1] [()]
    [[((1 : ℚ), (1 : ℚ))]] 0 0 [none] [] 1 "fit failed" rfl rfl).1

/-- Claim C5: prediction is deterministic — two calls of `regression_predict`
on equal image collections with equal trained cascades (regressors, damping
schedule, Shape Prior) return identical landmark coordinates.  The embedding
is a pure function of its arguments: the source contains no randomness in the
prediction path. -/
theorem C5_predict_deterministic {Img : Type} (sift : Img → Point → ℚ → List ℚ)
    (imgs₁ imgs₂ : List Img) (regs₁ regs₂ : List RegModel)
    (damping₁ damping₂ : List ℚ) (avg₁ avg₂ : Shape)
    (h1 : imgs₁ = imgs₂) (h2 : regs₁ = regs₂) (h3 : damping₁ = damping₂)
    (h4 : avg₁ = avg₂) :
    regression_predict sift avg₁ imgs₁ regs₁ damping₁
      = regression_predict sift avg₂ imgs₂ regs₂ damping₂ := by
  subst h1; subst h2; subst h3; subst h4; rfl

/-- Concrete instance of C5: repeated calls agree. -/
theorem C5_predict_deterministic_witness :
    regression_predict (fun _ _ _ => ([] : List ℚ)) [((0 : ℚ), (0 : ℚ))] [()]
        [⟨fun _ => [1, 1]⟩] [1]
      = regression_predict (fun _ _ _ => ([] : List ℚ)) [((0 : ℚ), (0 : ℚ))] [()]
        [⟨fun _ => [1, 1]⟩] [1] :=
  C5_predict_deterministic (fun _ _ _ => ([] : List ℚ)) [()] [()]
    [⟨fun _ => [1, 1]⟩] [⟨fun _ => [1, 1]⟩] [1] [1] [((0 : ℚ), (0 : ℚ))]
    [((0 : ℚ), (0 : ℚ))] rfl rfl rfl rfl

/-- Claim C6: predicting with a zero-stage cascade (empty regressor list)
returns the Shape Prior unchanged for every input image. -/
theorem C6_zero_stages_return_prior {Img : Type}
    (sift : Img → Point → ℚ → List ℚ) (imgs : List Img) (damping : List ℚ)
    (avg : Shape) :
    regression_predict sift avg imgs [] damping
      = Except.ok (imgs.map (fun _ => avg)) :=
  predictAll_nil_regs sift damping avg imgs

/-- A concrete descriptor backend for the stage-ordering experiment: the
descriptor of a keypoint is its x-coordinate. -/
def siftOrd : Unit → Point → ℚ → List ℚ := fun _ p _ => [p.1]

/-- A concrete deterministic stand-in for the least-squares fitter used in the
stage-ordering experiment: it returns the affine model
`v ↦ [c·v₀ + 1, 0]` where `c` is the first feature of the training batch, so
the two stages of the experiment fit genuinely different linear maps. -/
def fitOrd : List (List ℚ) → List (List ℚ) → Except String RegModel :=
  fun xs _ => Except.ok ⟨fun v => [(xs.headD []).headD 0 * v.headD 0 + 1, 0]⟩

/-- Claim C7: stage application does not commute — for a trained two-stage
cascade `[R1, R2]` (damping `[1, 1/2]`) there is an image on which applying
the stages in training order yields a different shape than applying them in
swapped order with the correspondingly swapped damping factors. -/
theorem C7_stage_order_matters :
    (cascaded_regression siftOrd fitOrd [((0 : ℚ), (0 : ℚ))] 2 [1, 1 / 2] [()]
        [[((5 : ℚ), (5 : ℚ))]]).bind
      (fun regs =>
        regression_predict siftOrd [((0 : ℚ), (0 : ℚ))] [()] regs [1, 1 / 2])
    ≠ (cascaded_regression siftOrd fitOrd [((0 : ℚ), (0 : ℚ))] 2 [1, 1 / 2] [()]
        [[((5 : ℚ), (5 : ℚ))]]).bind
      (fun regs =>
        regression_predict siftOrd [((0 : ℚ), (0 : ℚ))] [()] regs.reverse
          [1 / 2, 1]) := by
  norm_num [cascaded_regression, cascadeLoop, collectStage, updateStage,
    regression_predict, predictAll, predictLoop, compute_descriptors, siftOrd,
    fitOrd, addShape, subShape, smulShape, smulList, flattenShape, unflatten,
    addPt, subPt, smulPt, Except.map, Except.bind]

/-- Claim C8: when every per-landmark SIFT descriptor row has the backend's
fixed dimension `D`, the concatenated Descriptor Vector of any (image, shape)
pair has length exactly `K × D`, where `K` is the number of landmarks of the
shape — across all images and shapes. -/
theorem C8_descriptor_vector_length {Img : Type}
    (sift : Img → Point → ℚ → List ℚ) (D : ℕ)
    (h : ∀ (img : Img) (p : Point), (sift img p keypoint_size).length = D) :
    ∀ (img : Img) (pts : Shape),
      ((compute_descriptors sift img pts).flatten).length = pts.length * D := by
  intro img pts
  induction pts with
  | nil => simp [compute_descriptors]
  | cons p ps ih =>
    simp only [compute_descriptors, List.map_cons, List.flatten_cons,
      List.length_append, List.length_cons, h]
    simp only [compute_descriptors] at ih
    rw [ih]
    ring

/-- Concrete instance of C8: a backend of dimension 2 on a two-landmark
shape gives a feature vector of length 4. -/
theorem C8_descriptor_vector_length_witness :
    ((compute_descriptors (fun _ _ _ => [(0 : ℚ), 0]) () 
        [((0 : ℚ), (0 : ℚ)), ((1 : ℚ), (2 : ℚ))]).flatten).length
      = [((0 : ℚ), (0 : ℚ)), ((1 : ℚ), (2 : ℚ))].length * 2 :=
  C8_descriptor_vector_length (fun _ _ _ => [(0 : ℚ), 0]) 2 (fun _ _ => rfl) ()
    [((0 : ℚ), (0 : ℚ)), ((1 : ℚ), (2 : ℚ))]

/-! ### Frame lemmas for the store-passing translation -/

lemma memExt_refl {Img : Type} (m : Mem Img) : MemExt m m :=
  ⟨rfl, [], by simp⟩

lemma memExt_trans {Img : Type} {m₁ m₂ m₃ : Mem Img}
    (h : MemExt m₁ m₂) (h' : MemExt m₂ m₃) : MemExt m₁ m₃ := by
  obtain ⟨hi, t, ht⟩ := h
  obtain ⟨hi', t', ht'⟩ := h'
  exact ⟨hi'.trans hi, t ++ t', by rw [ht', ht, List.append_assoc]⟩

lemma memExt_allocS {Img : Type} (m : Mem Img) (s : Shape) :
    MemExt m (allocS m s).2 :=
  ⟨rfl, [s], rfl⟩

lemma readS_of_memExt {Img : Type} {m m' : Mem Img} (h : MemExt m m')
    {r : ℕ} (hr : r < m.shapes.length) :
    readS m'.shapes r = readS m.shapes r := by
  obtain ⟨-, t, ht⟩ := h
  rw [ht]
  unfold readS
  rw [List.getD_eq_getElem?_getD, List.getD_eq_getElem?_getD,
    List.getElem?_append_left hr]

lemma collectStageH_ext {Img : Type} [Inhabited Img]
    (sift : Img → Point → ℚ → List ℚ) (r_avg : ℕ) (d : ℚ) :
    ∀ (jrs grs : List ℕ) (preds : List (Option ℕ)) (m : Mem Img),
      MemExt m (collectStageH sift r_avg d jrs grs preds m).2.2.2 := by
  intro jrs
  induction jrs with
  | nil => intro grs preds m; simp only [collectStageH]; exact memExt_refl m
  | cons jr jrs ih =>
    intro grs preds m
    cases grs with
    | nil => simp only [collectStageH]; exact memExt_refl m
    | cons gr grs =>
      cases preds with
      | nil => simp only [collectStageH]; exact memExt_refl m
      | cons p preds =>
        cases p with
        | none =>
          simp only [collectStageH, allocS]
          exact memExt_trans (memExt_allocS m _) (ih grs preds _)
        | some r =>
          simp only [collectStageH]
          exact ih grs preds m

lemma updateStageH_ext {Img : Type} [Inhabited Img]
    (sift : Img → Point → ℚ → List ℚ) (model : RegModel) (d : ℚ) :
    ∀ (jrs rs : List ℕ) (m : Mem Img),
      MemExt m (updateStageH sift model d jrs rs m).2 := by
  intro jrs
  induction jrs with
  | nil => intro rs m; simp only [updateStageH]; exact memExt_refl m
  | cons jr jrs ih =>
    intro rs m
    cases rs with
    | nil => simp only [updateStageH]; exact memExt_refl m
    | cons r rs =>
      simp only [updateStageH, allocS]
      exact memExt_trans (memExt_allocS m _) (ih rs _)

lemma cascadeLoopH_ext {Img : Type} [Inhabited Img]
    (sift : Img → Point → ℚ → List ℚ)
    (fit : List (List ℚ) → List (List ℚ) → Except String RegModel)
    (r_avg : ℕ) (damping : List ℚ) (jrs grs : List ℕ) :
    ∀ (fuel i : ℕ) (preds : List (Option ℕ)) (acc : List RegModel)
      (m : Mem Img) (out : List RegModel × Mem Img),
      cascadeLoopH sift fit r_avg damping jrs grs i fuel preds acc m
        = Except.ok out → MemExt m out.2 := by
  intro fuel
  induction fuel with
  | zero =>
    intro i preds acc m out h
    simp only [cascadeLoopH, Except.ok.injEq] at h
    rw [← h]
    exact memExt_refl m
  | succ fuel ih =>
    intro i preds acc m out h
    simp only [cascadeLoopH] at h
    cases hd : damping[i]? with
    | none => rw [hd] at h; simp at h
    | some d =>
      rw [hd] at h
      dsimp only at h
      rcases hc : collectStageH sift r_avg d jrs grs preds m with
        ⟨preds1, xs, ys, m1⟩
      rw [hc] at h
      dsimp only at h
      cases hfit : fit xs ys with
      | error e => rw [hfit] at h; simp at h
      | ok model =>
        rw [hfit] at h
        dsimp only at h
        rcases hu : updateStageH sift model d jrs preds1 m1 with ⟨preds2, m2⟩
        rw [hu] at h
        dsimp only at h
        have h1 : MemExt m m1 := by
          have hx := collectStageH_ext sift r_avg d jrs grs preds m
          rw [hc] at hx
          exact hx
        have h2 : MemExt m1 m2 := by
          have hx := updateStageH_ext sift model d jrs preds1 m1
          rw [hu] at hx
          exact hx
        exact memExt_trans h1 (memExt_trans h2 (ih (i + 1) _ _ m2 out h))

lemma predictLoopH_ext {Img : Type} [Inhabited Img]
    (sift : Img → Point → ℚ → List ℚ) (jr : ℕ) (damping : List ℚ) :
    ∀ (regs : List RegModel) (i r : ℕ) (m : Mem Img) (out : ℕ × Mem Img),
      predictLoopH sift jr damping regs i r m = Except.ok out →
      MemExt m out.2 := by
  intro regs
  induction regs with
  | nil =>
    intro i r m out h
    simp only [predictLoopH, Except.ok.injEq] at h
    rw [← h]
    exact memExt_refl m
  | cons reg regs ih =>
    intro i r m out h
    simp only [predictLoopH] at h
    cases hd : damping[i]? with
    | none => rw [hd] at h; simp at h
    | some d =>
      rw [hd] at h
      dsimp only at h
      simp only [allocS] at h
      exact memExt_trans (memExt_allocS m _) (ih (i + 1) _ _ out h)

lemma predictAllH_ext {Img : Type} [Inhabited Img]
    (sift : Img → Point → ℚ → List ℚ) (damping : List ℚ)
    (regs : List RegModel) (r_avg : ℕ) :
    ∀ (jrs : List ℕ) (m : Mem Img) (out : List ℕ × Mem Img),
      predictAllH sift damping regs r_avg jrs m = Except.ok out →
      MemExt m out.2 := by
  intro jrs
  induction jrs with
  | nil =>
    intro m out h
    simp only [predictAllH, Except.ok.injEq] at h
    rw [← h]
    exact memExt_refl m
  | cons jr jrs ih =>
    intro m out h
    simp only [predictAllH, allocS] at h
    cases hpl : predictLoopH sift jr damping regs 0 m.shapes.length
        ⟨m.shapes ++ [readS m.shapes r_avg], m.images⟩ with
    | error e => rw [hpl] at h; simp at h
    | ok o1 =>
      rw [hpl] at h
      rcases o1 with ⟨rp, m2⟩
      dsimp only at h
      cases hpa : predictAllH sift damping regs r_avg jrs m2 with
      | error e => rw [hpa] at h; simp at h
      | ok o2 =>
        rw [hpa] at h
        rcases o2 with ⟨rps, m3⟩
        dsimp only [Except.ok.injEq] at h
        simp only [Except.ok.injEq] at h
        have e2 := predictLoopH_ext sift jr damping regs 0 m.shapes.length _ _ hpl
        have e3 := ih m2 (rps, m3) hpa
        rw [← h]
        exact memExt_trans (memExt_allocS m (readS m.shapes r_avg))
          (memExt_trans e2 e3)

/-- Claim C9: the shared Shape Prior is never mutated.  In the store-passing
translation, a successful training run and a successful prediction run only
ever allocate fresh arrays (stage-0 initialisation copies the prior; every
shape update allocates a new array), so the prior's cell `r_avg` holds
identical coordinates before and after either run. -/
theorem C9_prior_never_mutated {Img : Type} [Inhabited Img]
    (sift : Img → Point → ℚ → List ℚ)
    (fit : List (List ℚ) → List (List ℚ) → Except String RegModel)
    (r_avg num : ℕ) (damping : List ℚ) (img_refs gt_refs img_refs2 : List ℕ)
    (regs : List RegModel) (damping2 : List ℚ) (m m₁ m₂ : Mem Img)
    (hr : r_avg < m.shapes.length)
    (ht : Except.map (fun t => t.2)
        (cascaded_regression_st sift fit r_avg num damping img_refs gt_refs m)
        = Except.ok m₁)
    (hp : Except.map (fun t => t.2)
        (regression_predict_st sift r_avg img_refs2 regs damping2 m)
        = Except.ok m₂) :
    readS m₁.shapes r_avg = readS m.shapes r_avg
    ∧ readS m₂.shapes r_avg = readS m.shapes r_avg := by
  constructor
  · cases hrun : cascaded_regression_st sift fit r_avg num damping img_refs
        gt_refs m with
    | error e => rw [hrun] at ht; simp [Except.map] at ht
    | ok out =>
      rw [hrun] at ht
      simp only [Except.map, Except.ok.injEq] at ht
      rw [← ht]
      exact readS_of_memExt
        (cascadeLoopH_ext sift fit r_avg damping img_refs gt_refs num 0
          (List.replicate img_refs.length none) [] m out hrun) hr
  · cases hrun : regression_predict_st sift r_avg img_refs2 regs damping2 m with
    | error e => rw [hrun] at hp; simp [Except.map] at hp
    | ok out =>
      rw [hrun] at hp
      simp only [Except.map, Except.ok.injEq] at hp
      rw [← hp]
      exact readS_of_memExt
        (predictAllH_ext sift damping2 regs r_avg img_refs2 m out hrun) hr

/-- Concrete instance of C9: prior in cell 0, ground truth in cell 1; after a
one-stage training run (which allocates cells 2 and 3) and after a prediction
run (which allocates cell 2), cell 0 is unchanged. -/
theorem C9_prior_never_mutated_witness :
    readS [[((0 : ℚ), (0 : ℚ))], [((1 : ℚ), (1 : ℚ))], [((0 : ℚ), (0 : ℚ))], []] 0
        = readS [[((0 : ℚ), (0 : ℚ))], [((1 : ℚ), (1 : ℚ))]] 0
    ∧ readS [[((0 : ℚ), (0 : ℚ))], [((1 : ℚ), (1 : ℚ))], [((0 : ℚ), (0 : ℚ))]] 0
        = readS [[((0 : ℚ), (0 : ℚ))], [((1 : ℚ), (1 : ℚ))]] 0 :=
  C9_prior_never_mutated (fun _ _ _ => ([] : List ℚ))
    (fun _ _ => Except.ok ⟨fun _ => []⟩) 0 1 [1] [0] [1] [0] [] []
    (⟨[[((0 : ℚ), (0 : ℚ))], [((1 : ℚ), (1 : ℚ))]], [()]⟩ : Mem Unit)
    ⟨[[((0 : ℚ), (0 : ℚ))], [((1 : ℚ), (1 : ℚ))], [((0 : ℚ), (0 : ℚ))], []], [()]⟩
    ⟨[[((0 : ℚ), (0 : ℚ))], [((1 : ℚ), (1 : ℚ))], [((0 : ℚ), (0 : ℚ))]], [()]⟩
    (by decide) rfl rfl

/-- Claim C10: training does not modify its inputs — after a successful
training run in the store-passing translation, every ground-truth cell holds
identical coordinates and the image store is identical, because the trainer
only allocates fresh working arrays for its per-sample predictions. -/
theorem C10_training_inputs_unmodified {Img : Type} [Inhabited Img]
    (sift : Img → Point → ℚ → List ℚ)
    (fit : List (List ℚ) → List (List ℚ) → Except String RegModel)
    (r_avg num : ℕ) (damping : List ℚ) (img_refs gt_refs : List ℕ)
    (m m₁ : Mem Img)
    (hgt : ∀ r ∈ gt_refs, r < m.shapes.length)
    (ht : Except.map (fun t => t.2)
        (cascaded_regression_st sift fit r_avg num damping img_refs gt_refs m)
        = Except.ok m₁) :
    (∀ r ∈ gt_refs, readS m₁.shapes r = readS m.shapes r)
    ∧ m₁.images = m.images := by
  have hext : MemExt m m₁ := by
    cases hrun : cascaded_regression_st sift fit r_avg num damping img_refs
        gt_refs m with
    | error e => rw [hrun] at ht; simp [Except.map] at ht
    | ok out =>
      rw [hrun] at ht
      simp only [Except.map, Except.ok.injEq] at ht
      rw [← ht]
      exact cascadeLoopH_ext sift fit r_avg damping img_refs gt_refs num 0
        (List.replicate img_refs.length none) [] m out hrun
  exact ⟨fun r hrm => readS_of_memExt hext (hgt r hrm), hext.1⟩

/-- Concrete instance of C10: the ground-truth cell 1 and the image store are
unchanged by the one-stage training run. -/
theorem C10_training_inputs_unmodified_witness :
    readS [[((0 : ℚ), (0 : ℚ))], [((1 : ℚ), (1 : ℚ))], [((0 : ℚ), (0 : ℚ))], []] 1
        = readS [[((0 : ℚ), (0 : ℚ))], [((1 : ℚ), (1 : ℚ))]] 1
    ∧ (⟨[[((0 : ℚ), (0 : ℚ))], [((1 : ℚ), (1 : ℚ))], [((0 : ℚ), (0 : ℚ))], []],
          [()]⟩ : Mem Unit).images
        = (⟨[[((0 : ℚ), (0 : ℚ))], [((1 : ℚ), (1 : ℚ))]], [()]⟩ : Mem Unit).images := by
  have h := C10_training_inputs_unmodified (fun _ _ _ => ([] : List ℚ))
    (fun _ _ => Except.ok ⟨fun _ => []⟩) 0 1 [1] [0] [1]
    (⟨[[((0 : ℚ), (0 : ℚ))], [((1 : ℚ), (1 : ℚ))]], [()]⟩ : Mem Unit)
    ⟨[[((0 : ℚ), (0 : ℚ))], [((1 : ℚ), (1 : ℚ))], [((0 : ℚ), (0 : ℚ))], []], [()]⟩
    (by decide) rfl
  exact ⟨h.1 1 (by decide), h.2⟩
